import Mathlib

/-!
Verification development for the Survivor fantasy-tracker scoring application.

The repository's client scripts (`app/static/js/app.js` and its sibling) are
embedded directly.  The server-side scoring engine (`score_episode_event`,
`rescore_season`, `leaderboard`, `castaway_rankings`) is not part of the
source excerpt, so it is modelled from the specification document, faithful
to its words; every such definition is marked `Modelled from the spec:` in
its doc comment.
-/

/-- Modelled from the spec: multiplier kind of a scoring rule,
`multiplier_kind ∈ {binary, per_instance}` (spec §3). -/
inductive MultiplierKind where
  | binary
  | per_instance
deriving DecidableEq, Repr

/-- Modelled from the spec: phase restriction of a scoring rule,
`phase ∈ {pre_merge, post_merge, any}` (spec §3). -/
inductive Phase where
  | pre_merge
  | post_merge
  | any
deriving DecidableEq, Repr

/-- Modelled from the spec: a scoring rule row,
`{rule_key, points, multiplier_kind, phase, is_active}` (spec §3, §6).
`points` is a signed decimal, modelled as a rational. -/
structure ScoringRule where
  rule_key : String
  points : ℚ
  multiplier_kind : MultiplierKind
  phase : Phase
  is_active : Bool
deriving DecidableEq, Repr

/-- Modelled from the spec: a raw value submitted in `event_data`:
boolean-like for binary rules, integer count for per-instance rules,
plus a non-numeric shape that per-instance validation must reject
(spec §3, §4.1, §9 "a small closed set of permitted value shapes"). -/
inductive RawValue where
  | bool (b : Bool)
  | num (n : ℤ)
  | nonNumeric
deriving DecidableEq, Repr

/-- Modelled from the spec: `event_data`, a mapping from rule_key to a raw
value (spec §3), modelled as an association list with string keys. -/
abbrev EventData : Type := List (String × RawValue)

/-- Lookup of a rule key in event data (first matching entry). -/
def lookupKey : EventData → String → Option RawValue
  | [], _ => none
  | (k, v) :: rest, key => if k = key then some v else lookupKey rest key

/-- A key is present in event data when lookup finds it. -/
def hasKey (ed : EventData) (key : String) : Bool :=
  (lookupKey ed key).isSome

/-- Modelled from the spec: truthiness of a submitted raw value for binary
rules, "truthy (nonzero / true)" (spec §4.1). -/
def truthy : RawValue → Bool
  | .bool b => b
  | .num n => n ≠ 0
  | .nonNumeric => true

/-- Modelled from the spec: the error taxonomy entry relevant to the engine,
`ValidationError` (spec §7). -/
inductive ScoreError where
  | validationError
deriving DecidableEq, Repr

/-- Modelled from the spec: the derived phase of an episode, given the merge
episode's number (when the season has one): "phase = post_merge iff
episode_number ≥ the merge episode's number" (spec §6); with no merge
episode every episode is pre-merge. -/
def derivedPhase (mergeEpisodeNumber : Option ℕ) (episode_number : ℕ) : Phase :=
  match mergeEpisodeNumber with
  | some m => if m ≤ episode_number then Phase.post_merge else Phase.pre_merge
  | none => Phase.pre_merge

/-- Modelled from the spec: a rule applies unless its phase is
pre_merge/post_merge and does not match the episode's derived phase; rules
with phase "any" always apply (spec §4.1). -/
def phaseMatches (rulePhase : Phase) (episodePhase : Phase) : Bool :=
  match rulePhase with
  | .any => true
  | p => p = episodePhase

/-- Modelled from the spec: the contribution of a rule's multiplier kind
applied to a submitted raw value (spec §4.1): binary rules contribute
`points` on a truthy value and 0 otherwise; per-instance rules contribute
`points * n` for a non-negative integer count `n` and fail with
`ValidationError` when the value is negative or non-numeric. -/
def kindContribution (r : ScoringRule) (v : RawValue) : Except ScoreError ℚ :=
  match r.multiplier_kind with
  | .binary => .ok (if truthy v then r.points else 0)
  | .per_instance =>
    match v with
    | .num n => if 0 ≤ n then .ok (r.points * (n : ℚ)) else .error .validationError
    | _ => .error .validationError

/-- Modelled from the spec: the contribution of one rule to an episode event
(spec §4.1): 0 when the rule's phase does not match the episode's derived
phase, otherwise the multiplier-kind contribution. -/
def ruleContribution (mergeEpisodeNumber : Option ℕ) (episode_number : ℕ)
    (r : ScoringRule) (v : RawValue) : Except ScoreError ℚ :=
  if phaseMatches r.phase (derivedPhase mergeEpisodeNumber episode_number) then
    kindContribution r v
  else
    .ok 0

/-- Modelled from the spec: the unrounded sum of contributions of every
active rule whose `rule_key` is present in `event_data` (spec §4.1); keys of
`event_data` matching no active rule are ignored, inactive rules are skipped
(spec §6), and any per-rule `ValidationError` fails the whole computation
(spec §7, "no partial persistence"). -/
def rawScore (rules : List ScoringRule) (mergeEpisodeNumber : Option ℕ)
    (episode_number : ℕ) (ed : EventData) : Except ScoreError ℚ :=
  match rules with
  | [] => .ok 0
  | r :: rest =>
    match rawScore rest mergeEpisodeNumber episode_number ed with
    | .error e => .error e
    | .ok s =>
      if r.is_active then
        match lookupKey ed r.rule_key with
        | some v =>
          match ruleContribution mergeEpisodeNumber episode_number r v with
          | .ok c => .ok (c + s)
          | .error e => .error e
        | none => .ok s
      else
        .ok s

/-- Modelled from the spec: rounding to a fixed decimal precision of 2
places for storage (spec §4.1). -/
def round2 (q : ℚ) : ℚ :=
  ((round (100 * q) : ℤ) : ℚ) / 100

/-- Modelled from the spec:
`score_episode_event(rules, episode, event_data) → calculated_score`
(spec §4.1): the sum of all contributions, rounded to 2 decimal places;
a pure function of its inputs. -/
def score_episode_event (rules : List ScoringRule) (mergeEpisodeNumber : Option ℕ)
    (episode_number : ℕ) (ed : EventData) : Except ScoreError ℚ :=
  (rawScore rules mergeEpisodeNumber episode_number ed).map round2

/-- Modelled from the spec: episode metadata `{episode_number, is_merge}`
(spec §3, §6). -/
structure Episode where
  episode_number : ℕ
  is_merge : Bool
deriving DecidableEq, Repr

/-- Modelled from the spec: a persisted castaway-episode event row
`{castaway_id, episode_id, event_data, calculated_score}` (spec §3, §6). -/
structure EventRow where
  castaway_id : ℕ
  episode_number : ℕ
  event_data : EventData
  calculated_score : ℚ

/-- Modelled from the spec: the season state the rescore operation works
over — its rules, its episodes, and its persisted event rows (spec §3). -/
structure Season where
  rules : List ScoringRule
  episodes : List Episode
  events : List EventRow

/-- The season's merge episode's number, when a merge episode exists. -/
def mergeEpisodeNumberOf (episodes : List Episode) : Option ℕ :=
  (episodes.find? (fun e => e.is_merge)).map (fun e => e.episode_number)

/-- Modelled from the spec: recomputation of one event row's score during a
rescore, using the current rule set (spec §4.3): `none` when the row
references an episode that no longer exists (such rows are skipped, spec
§4.3 failure mode) or when scoring fails validation. -/
def recompute (rules : List ScoringRule) (episodes : List Episode)
    (ev : EventRow) : Option ℚ :=
  if episodes.any (fun e => e.episode_number = ev.episode_number) then
    (score_episode_event rules (mergeEpisodeNumberOf episodes)
      ev.episode_number ev.event_data).toOption
  else
    none

/-- Modelled from the spec: one step of `rescore_season` on a single event
row — overwrite `calculated_score` with the recomputed value, keeping the
old score when the row must be skipped (spec §4.3). -/
def rescoreEvent (rules : List ScoringRule) (episodes : List Episode)
    (ev : EventRow) : EventRow :=
  { ev with calculated_score := (recompute rules episodes ev).getD ev.calculated_score }

/-- Modelled from the spec: `rescore_season(season)` (spec §4.3): recompute
`calculated_score` of every event row of the season using the season's
current active rule set; rules and episodes are untouched. -/
def rescore_season (s : Season) : Season :=
  { s with events := s.events.map (rescoreEvent s.rules s.episodes) }

/-- Change the `points` value of every rule carrying the given key, leaving
every other rule untouched — the rule edit of spec §8's rescore property. -/
def updateRulePoints (rules : List ScoringRule) (key : String) (p : ℚ) :
    List ScoringRule :=
  rules.map (fun r => if r.rule_key = key then { r with points := p } else r)

/-- Descending order on scored entries: the later entry's total does not
exceed the earlier one's. -/
def scoreDescRel (a b : String × ℚ) : Prop := b.2 ≤ a.2

instance : DecidableRel scoreDescRel := fun a b =>
  inferInstanceAs (Decidable (b.2 ≤ a.2))

instance : IsTotal (String × ℚ) scoreDescRel :=
  ⟨fun a b => le_total b.2 a.2⟩

instance : IsTrans (String × ℚ) scoreDescRel :=
  ⟨fun _ _ _ h1 h2 => le_trans h2 h1⟩

/-- Modelled from the spec: standard competition rank of a total score among
a list of entries — 1 plus the number of entries with a strictly greater
total (spec §4.4, §8: ties share a rank, pattern 1,2,2,4). -/
def rankOf (entries : List (String × ℚ)) (total : ℚ) : ℕ :=
  1 + entries.countP (fun q => decide (total < q.2))

/-- Modelled from the spec: order entries by total_score descending and
attach standard competition ranks (spec §4.4, §4.5). -/
def rankEntries (entries : List (String × ℚ)) : List (String × ℚ × ℕ) :=
  (List.insertionSort scoreDescRel entries).map
    (fun p => (p.1, p.2, rankOf entries p.2))

/-- Modelled from the spec: `leaderboard(season)` ranking of fantasy players
by total_score (spec §4.4); the aggregation into `(player, total)` pairs is
the collaborator's input, the ordering and ranking is the engine's. -/
def leaderboard (entries : List (String × ℚ)) : List (String × ℚ × ℕ) :=
  rankEntries entries

/-- Modelled from the spec: `castaway_rankings(season)` — the same
ordering/ranking logic applied to castaways (spec §4.5). -/
def castaway_rankings (entries : List (String × ℚ)) : List (String × ℚ × ℕ) :=
  rankEntries entries

/-- The browser environment `getCurrentSeasonId` reads
(`app/static/js/app.js:91-104`): the fetched season list, modelled by the
seasons' ids in order, and the saved `localStorage` selection, modelled by
the `parseInt` of the stored string — `none` when no usable number is
stored (key absent, empty string, or a non-numeric string whose `parseInt`
is `NaN`, all of which fail the `saved && seasons.find(...)` test). -/
structure SeasonEnv where
  seasons : List ℤ
  saved : Option ℤ

/-- The uncached branch of `getCurrentSeasonId`
(`app/static/js/app.js:93-103`): return `null` for an empty season list
(leaving the cache untouched); otherwise take the saved selection when its
id matches some season in the list, else the first season's id, and cache
the result.  Returns (returned value, new cache). -/
def resolveSeasonId (env : SeasonEnv) (cache : Option ℤ) : Option ℤ × Option ℤ :=
  match env.seasons with
  | [] => (none, cache)
  | first :: _ =>
    match env.saved with
    | some sv =>
      if env.seasons.contains sv then (some sv, some sv)
      else (some first, some first)
    | none => (some first, some first)

/-- The function `getCurrentSeasonId` (`app/static/js/app.js:91-104`), with the
module-level mutable `_currentSeasonId` made an explicit cache argument.
The JS guard `if (_currentSeasonId) return _currentSeasonId` is a
truthiness test: it short-circuits only when the cached id is non-null and
nonzero.  Returns (returned value, cache after the call). -/
def getCurrentSeasonId (cache : Option ℤ) (env : SeasonEnv) : Option ℤ × Option ℤ :=
  match cache with
  | some v => if v ≠ 0 then (some v, some v) else resolveSeasonId env cache
  | none => resolveSeasonId env cache

/-- The CSS class `formatScore` picks (`app/static/js/app.js:140`):
`score-positive` for a positive value, `score-negative` for a negative one,
the empty string for zero. -/
def scoreClass (q : ℚ) : String :=
  if 0 < q then "score-positive" else if q < 0 then "score-negative" else ""

/-- Zero-padded two-digit rendering of a natural number below 100, the
fractional part of a `toFixed(2)` rendering. -/
def twoDigits (m : ℕ) : String :=
  (if m < 10 then "0" else "") ++ Nat.repr m

/-- JavaScript `num.toFixed(2)` (`app/static/js/app.js:141`) on a numeric
value modelled as a rational: a `-` sign exactly for negative inputs, then
the magnitude rounded to the nearest hundredth (ties away from zero),
written with exactly two digits after the decimal point. -/
def toFixed2 (q : ℚ) : String :=
  let n : ℕ := (round (100 * |q|)).toNat
  (if q < 0 then "-" else "") ++ Nat.repr (n / 100) ++ "." ++ twoDigits (n % 100)

/-- The function `formatScore` (`app/static/js/app.js:137-142`): `null`/`undefined`
(modelled as `none`) renders as the plain string `0`; a numeric value
renders as a span carrying the sign class and the `toFixed(2)` text. -/
def formatScore : Option ℚ → String
  | none => "0"
  | some q =>
    "<span class=\"score " ++ scoreClass q ++ "\">" ++ toFixed2 q ++ "</span>"

/-- A key of submitted event data matches some active rule of the season. -/
def matchesActiveRule (rules : List ScoringRule) (key : String) : Bool :=
  rules.any (fun r => r.is_active && decide (r.rule_key = key))

/-- Event data restricted to the keys that match some active rule. -/
def restrictToActive (ed : EventData) (rules : List ScoringRule) : EventData :=
  ed.filter (fun kv => matchesActiveRule rules kv.1)

/-- The spec §8 example binary rule: quitting costs 15 points in any phase. -/
def quitRule : ScoringRule :=
  { rule_key := "quit", points := -15, multiplier_kind := MultiplierKind.binary,
    phase := Phase.any, is_active := true }

/-- Event data submitting `quit: true` for the spec §8 example. -/
def quitEvent : EventData := [(quitRule.rule_key, RawValue.bool true)]

/-- The spec §8 example per-instance rule: a quarter point per confessional. -/
def confessionalRule : ScoringRule :=
  { rule_key := "confessional_count", points := 1/4,
    multiplier_kind := MultiplierKind.per_instance,
    phase := Phase.any, is_active := true }

/-- Event data submitting `confessional_count: 3` for the spec §8 example. -/
def confessionalEvent : EventData :=
  [(confessionalRule.rule_key, RawValue.num 3)]

/-- The spec §8 example post-merge rule worth 2 points. -/
def postMergeRule : ScoringRule :=
  { rule_key := "post_merge_bonus", points := 2,
    multiplier_kind := MultiplierKind.binary,
    phase := Phase.post_merge, is_active := true }

/-- Whether a scoring computation succeeded. -/
def exOk {α : Type} : Except ScoreError α → Bool
  | .ok _ => true
  | .error _ => false

/-- The single scored event row of the rescore witness season. -/
def witnessRow : EventRow :=
  { castaway_id := 1, episode_number := 1,
    event_data := quitEvent, calculated_score := -15 }

/-- A one-episode season with one scored event, used as a rescore witness. -/
def witnessSeason : Season :=
  { rules := [quitRule, confessionalRule],
    episodes := [{ episode_number := 1, is_merge := false }],
    events := [witnessRow] }

instance : IsRefl (String × ℚ) scoreDescRel := ⟨fun a => le_refl a.2⟩

/-- Concrete totals producing a tie: scores 10, 8, 8, 5. -/
def rankWitnessEntries : List (String × ℚ) :=
  [("a", 10), ("b", 8), ("c", 8), ("d", 5)]

theorem lookupKey_filter (p : String → Bool) :
    ∀ (ed : EventData) (key : String), p key = true →
      lookupKey (ed.filter (fun kv => p kv.1)) key = lookupKey ed key := by
  intro ed
  induction ed with
  | nil => intro key _; rfl
  | cons kv rest ih =>
    intro key hp
    obtain ⟨k, v⟩ := kv
    by_cases hk : k = key
    · subst hk
      simp [List.filter_cons, hp, lookupKey]
    · cases hpk : p k with
      | true => simp [List.filter_cons, hpk, lookupKey, hk, ih key hp]
      | false => simp [List.filter_cons, hpk, lookupKey, hk, ih key hp]

theorem rawScore_restrict (m : Option ℕ) (e : ℕ) (ed : EventData)
    (rules : List ScoringRule) :
    ∀ rules' : List ScoringRule,
      (∀ r ∈ rules', r.is_active = true → matchesActiveRule rules r.rule_key = true) →
      rawScore rules' m e (restrictToActive ed rules) = rawScore rules' m e ed := by
  intro rules'
  induction rules' with
  | nil => intro _; rfl
  | cons r rest ih =>
    intro h
    have hrest := ih (fun r' hr' => h r' (List.mem_cons_of_mem r hr'))
    cases hact : r.is_active with
    | false => simp [rawScore, hact, hrest]
    | true =>
      have hmatch : matchesActiveRule rules r.rule_key = true :=
        h r (List.mem_cons_self r rest) hact
      have hlook : lookupKey (restrictToActive ed rules) r.rule_key =
          lookupKey ed r.rule_key :=
        lookupKey_filter (matchesActiveRule rules) ed r.rule_key hmatch
      simp [rawScore, hact, hrest, hlook]

/-- Claim C1: for every active rule with `multiplier_kind = binary` whose
`rule_key` is present in `event_data` and whose phase matches the episode,
`score_episode_event` contributes exactly the rule's `points` when the
submitted value is truthy and 0 when the submitted value is false/0. -/
theorem binary_rule_scoring (r : ScoringRule) (m : Option ℕ) (e : ℕ)
    (ed : EventData) (v : RawValue)
    (hact : r.is_active = true)
    (hkind : r.multiplier_kind = MultiplierKind.binary)
    (hph : phaseMatches r.phase (derivedPhase m e) = true)
    (hlook : lookupKey ed r.rule_key = some v) :
    ruleContribution m e r v = Except.ok (if truthy v then r.points else 0) ∧
    score_episode_event [r] m e ed =
      Except.ok (round2 (if truthy v then r.points else 0)) := by
  have h1 : ruleContribution m e r v =
      Except.ok (if truthy v then r.points else 0) := by
    unfold ruleContribution kindContribution
    rw [hph, hkind]
    simp
  refine ⟨h1, ?_⟩
  simp [score_episode_event, rawScore, hact, hlook, h1, Except.map]

/-- Claim C1 witness: the spec §8 example — rule `quit` worth −15, event
data `quit: true` — contributes exactly −15.00. -/
theorem binary_rule_scoring_witness :
    (ruleContribution none 3 quitRule (RawValue.bool true) =
      Except.ok (if truthy (RawValue.bool true) then quitRule.points else 0) ∧
     score_episode_event [quitRule] none 3 quitEvent =
      Except.ok (round2 (if truthy (RawValue.bool true) then quitRule.points else 0))) ∧
    score_episode_event [quitRule] none 3 quitEvent = Except.ok (-15) := by
  refine ⟨binary_rule_scoring quitRule none 3 quitEvent (RawValue.bool true)
    rfl rfl rfl (by decide), ?_⟩
  with_unfolding_all rfl

/-- Claim C2: for every active rule with `multiplier_kind = per_instance`
whose `rule_key` is present in `event_data` and whose phase matches the
episode, `score_episode_event` contributes exactly `points * n` for a
submitted non-negative integer count `n`, and fails with `ValidationError`
if and only if the submitted value is negative or non-numeric. -/
theorem per_instance_rule_scoring (r : ScoringRule) (m : Option ℕ) (e : ℕ)
    (ed : EventData) (v : RawValue)
    (hact : r.is_active = true)
    (hkind : r.multiplier_kind = MultiplierKind.per_instance)
    (hph : phaseMatches r.phase (derivedPhase m e) = true)
    (hlook : lookupKey ed r.rule_key = some v) :
    (∀ n : ℤ, v = RawValue.num n → 0 ≤ n →
        ruleContribution m e r v = Except.ok (r.points * (n : ℚ)) ∧
        score_episode_event [r] m e ed =
          Except.ok (round2 (r.points * (n : ℚ)))) ∧
    (ruleContribution m e r v = Except.error ScoreError.validationError ↔
        ¬ ∃ n : ℤ, v = RawValue.num n ∧ 0 ≤ n) ∧
    ((¬ ∃ n : ℤ, v = RawValue.num n ∧ 0 ≤ n) →
        score_episode_event [r] m e ed =
          Except.error ScoreError.validationError) := by
  have hcontrib : ruleContribution m e r v = kindContribution r v := by
    unfold ruleContribution
    rw [hph]
    simp
  refine ⟨?_, ?_, ?_⟩
  · intro n hv hn
    subst hv
    have h1 : ruleContribution m e r (RawValue.num n) =
        Except.ok (r.points * (n : ℚ)) := by
      rw [hcontrib]
      unfold kindContribution
      rw [hkind]
      simp [hn]
    exact ⟨h1, by simp [score_episode_event, rawScore, hact, hlook, h1, Except.map]⟩
  · rw [hcontrib]
    unfold kindContribution
    rw [hkind]
    cases v with
    | bool b => simp
    | num n =>
      by_cases hn : 0 ≤ n
      · simp [hn]
      · simp [hn]
    | nonNumeric => simp
  · intro hbad
    have herr : ruleContribution m e r v = Except.error ScoreError.validationError := by
      rw [hcontrib]
      unfold kindContribution
      rw [hkind]
      cases v with
      | bool b => rfl
      | num n =>
        have hn : ¬ 0 ≤ n := fun hc => hbad ⟨n, rfl, hc⟩
        simp [hn]
      | nonNumeric => rfl
    simp [score_episode_event, rawScore, hact, hlook, herr, Except.map]

/-- Claim C2 witness: the spec §8 example — rule `confessional_count` worth
0.25 per instance, event data `confessional_count: 3` — contributes exactly
0.75; a negative count fails with `ValidationError`. -/
theorem per_instance_rule_scoring_witness :
    (ruleContribution none 3 confessionalRule (RawValue.num 3) =
        Except.ok (confessionalRule.points * ((3 : ℤ) : ℚ)) ∧
     score_episode_event [confessionalRule] none 3 confessionalEvent =
        Except.ok (round2 (confessionalRule.points * ((3 : ℤ) : ℚ)))) ∧
    score_episode_event [confessionalRule] none 3 confessionalEvent =
      Except.ok (3/4) ∧
    score_episode_event [confessionalRule] none 3
        [(confessionalRule.rule_key, RawValue.num (-2))] =
      Except.error ScoreError.validationError := by
  have h := per_instance_rule_scoring confessionalRule none 3 confessionalEvent
    (RawValue.num 3) rfl rfl rfl (by decide)
  refine ⟨h.1 3 rfl (by decide), by with_unfolding_all rfl, ?_⟩
  have h2 := per_instance_rule_scoring confessionalRule none 3
    [(confessionalRule.rule_key, RawValue.num (-2))]
    (RawValue.num (-2)) rfl rfl rfl (by decide)
  exact h2.2.2 (by rintro ⟨n, hn, hge⟩; cases hn; omega)

/-- Claim C3: rules restricted to pre_merge or post_merge contribute 0
whenever the episode's derived phase does not match; the derived phase is
post_merge iff `episode_number` is at least the merge episode's number (and
pre_merge otherwise); rules with phase `any` contribute for every
episode. -/
theorem phase_filtering (m : Option ℕ) (e : ℕ) (r : ScoringRule)
    (v : RawValue) (mn : ℕ) :
    (derivedPhase (some mn) e = Phase.post_merge ↔ mn ≤ e) ∧
    (derivedPhase (some mn) e = Phase.pre_merge ↔ e < mn) ∧
    ((r.phase = Phase.pre_merge ∨ r.phase = Phase.post_merge) →
      phaseMatches r.phase (derivedPhase m e) = false →
      ruleContribution m e r v = Except.ok 0) ∧
    (r.phase = Phase.any →
      ruleContribution m e r v = kindContribution r v) := by
  refine ⟨?_, ?_, ?_, ?_⟩
  · unfold derivedPhase
    by_cases h : mn ≤ e
    · simp [h]
    · simp [h]
  · unfold derivedPhase
    by_cases h : mn ≤ e
    · simp [h]
    · simp [h]
      omega
  · intro _ hmis
    unfold ruleContribution
    rw [hmis]
    simp
  · intro hany
    unfold ruleContribution phaseMatches
    rw [hany]
    simp

/-- Claim C3 witness: the spec §8 example — merge at episode 7, a
post_merge-only binary rule worth 2, episode 5 with a truthy submitted
value — contributes 0 (filtered out). -/
theorem phase_filtering_witness :
    (derivedPhase (some 7) 5 = Phase.post_merge ↔ 7 ≤ 5) ∧
    ruleContribution (some 7) 5 postMergeRule (RawValue.bool true) =
      Except.ok 0 := by
  have h := phase_filtering (some 7) 5 postMergeRule (RawValue.bool true) 7
  exact ⟨h.1, h.2.2.1 (Or.inr rfl) (by decide)⟩

/-- Claim C4: keys of `event_data` that match no active rule of the season
are ignored — the computed score equals the score of the same event data
restricted to the keys of active rules, and such keys never cause an
error. -/
theorem stale_keys_ignored (rules : List ScoringRule) (m : Option ℕ)
    (e : ℕ) (ed : EventData) :
    score_episode_event rules m e (restrictToActive ed rules) =
      score_episode_event rules m e ed := by
  unfold score_episode_event
  rw [rawScore_restrict m e ed rules rules]
  intro r hr hact
  unfold matchesActiveRule
  exact List.any_eq_true.mpr ⟨r, hr, by simp [hact]⟩

/-- Claim C7: a `calculated_score` returned by `score_episode_event` is
exactly the unrounded sum of per-rule contributions rounded to 2 decimal
places, hence always an integer number of hundredths — no unrounded
intermediate sum is ever the result. -/
theorem calculated_score_is_rounded_sum (rules : List ScoringRule)
    (m : Option ℕ) (e : ℕ) (ed : EventData) (q : ℚ)
    (h : score_episode_event rules m e ed = Except.ok q) :
    ∃ s, rawScore rules m e ed = Except.ok s ∧ q = round2 s ∧
      ∃ n : ℤ, q = (n : ℚ) / 100 := by
  unfold score_episode_event at h
  cases hr : rawScore rules m e ed with
  | error err =>
    rw [hr] at h
    simp [Except.map] at h
  | ok s =>
    rw [hr] at h
    simp only [Except.map, Except.ok.injEq] at h
    exact ⟨s, rfl, h.symm, round (100 * s), by rw [← h]; rfl⟩

/-- Claim C7 witness: at the spec §8 `quit` example the returned score −15
is the rounding of the contribution sum and is an integer number of
hundredths. -/
theorem calculated_score_is_rounded_sum_witness :
    score_episode_event [quitRule] none 3 quitEvent = Except.ok (-15) ∧
    ∃ s, rawScore [quitRule] none 3 quitEvent = Except.ok s ∧
      (-15 : ℚ) = round2 s ∧ ∃ n : ℤ, (-15 : ℚ) = (n : ℚ) / 100 := by
  have hscore : score_episode_event [quitRule] none 3 quitEvent =
      Except.ok (-15) := by with_unfolding_all rfl
  exact ⟨hscore,
    calculated_score_is_rounded_sum [quitRule] none 3 quitEvent (-15) hscore⟩

/-- Claim C8: `score_episode_event` is a pure function of its inputs —
two calls with identical rules, episode data, and event data return an
identical `calculated_score`, and no state is involved. -/
theorem score_episode_event_pure (rulesA rulesB : List ScoringRule)
    (mA mB : Option ℕ) (eA eB : ℕ) (edA edB : EventData)
    (hr : rulesA = rulesB) (hm : mA = mB) (he : eA = eB) (hed : edA = edB) :
    score_episode_event rulesA mA eA edA =
      score_episode_event rulesB mB eB edB := by
  subst hr hm he hed
  rfl

/-- Claim C8 witness: two calls at the spec §8 `quit` example agree. -/
theorem score_episode_event_pure_witness :
    score_episode_event [quitRule] none 3 quitEvent =
      score_episode_event [quitRule] none 3 quitEvent :=
  score_episode_event_pure [quitRule] [quitRule] none none 3 3
    quitEvent quitEvent rfl rfl rfl rfl

theorem updateRulePoints_cons (r : ScoringRule) (rest : List ScoringRule)
    (key : String) (p : ℚ) :
    updateRulePoints (r :: rest) key p =
      (if r.rule_key = key then { r with points := p } else r) ::
        updateRulePoints rest key p := rfl

theorem ruleContribution_update_exOk (m : Option ℕ) (e : ℕ) (key : String)
    (p : ℚ) (r : ScoringRule) (v : RawValue) :
    exOk (ruleContribution m e
        (if r.rule_key = key then { r with points := p } else r) v) =
      exOk (ruleContribution m e r v) := by
  by_cases hk : r.rule_key = key
  · simp only [hk, if_pos]
    unfold ruleContribution kindContribution
    by_cases hph : phaseMatches r.phase (derivedPhase m e)
    · simp only [hph]
      cases hmk : r.multiplier_kind with
      | binary => simp [exOk]
      | per_instance =>
        cases v with
        | bool b => simp [exOk]
        | num n =>
          by_cases hn : 0 ≤ n
          · simp [hn, exOk]
          · simp [hn, exOk]
        | nonNumeric => simp [exOk]
    · simp [hph]
  · simp [hk]

theorem rawScore_update_exOk (key : String) (p : ℚ) (m : Option ℕ) (e : ℕ)
    (ed : EventData) :
    ∀ rules : List ScoringRule,
      exOk (rawScore (updateRulePoints rules key p) m e ed) =
        exOk (rawScore rules m e ed) := by
  intro rules
  induction rules with
  | nil => rfl
  | cons r rest ih =>
    rw [updateRulePoints_cons]
    generalize hrr : (if r.rule_key = key then { r with points := p } else r) = rr
    have hkey : rr.rule_key = r.rule_key := by
      rw [← hrr]
      by_cases hk : r.rule_key = key
      · simp [hk]
      · simp [hk]
    have hactive : rr.is_active = r.is_active := by
      rw [← hrr]
      by_cases hk : r.rule_key = key
      · simp [hk]
      · simp [hk]
    have hcall : ∀ v, exOk (ruleContribution m e rr v) =
        exOk (ruleContribution m e r v) := by
      intro v
      rw [← hrr]
      exact ruleContribution_update_exOk m e key p r v
    cases h' : rawScore (updateRulePoints rest key p) m e ed with
    | error e1 =>
      cases h : rawScore rest m e ed with
      | error e2 => simp [rawScore, h', h, exOk]
      | ok s => rw [h', h] at ih; simp [exOk] at ih
    | ok s' =>
      cases h : rawScore rest m e ed with
      | error e2 => rw [h', h] at ih; simp [exOk] at ih
      | ok s =>
        cases hact : r.is_active with
        | false => simp [rawScore, h', h, hactive, hact, exOk]
        | true =>
          cases hlook : lookupKey ed r.rule_key with
          | none => simp [rawScore, h', h, hactive, hact, hkey, hlook, exOk]
          | some v =>
            have hc := hcall v
            cases hc1 : ruleContribution m e rr v with
            | error e3 =>
              cases hc2 : ruleContribution m e r v with
              | error e4 =>
                simp [rawScore, h', h, hactive, hact, hkey, hlook, hc1, hc2, exOk]
              | ok c => rw [hc1, hc2] at hc; simp [exOk] at hc
            | ok c' =>
              cases hc2 : ruleContribution m e r v with
              | error e4 => rw [hc1, hc2] at hc; simp [exOk] at hc
              | ok c =>
                simp [rawScore, h', h, hactive, hact, hkey, hlook, hc1, hc2, exOk]

theorem rawScore_update_no_key (key : String) (p : ℚ) (m : Option ℕ) (e : ℕ)
    (ed : EventData) (hue : lookupKey ed key = none) :
    ∀ rules : List ScoringRule,
      rawScore (updateRulePoints rules key p) m e ed = rawScore rules m e ed := by
  intro rules
  induction rules with
  | nil => rfl
  | cons r rest ih =>
    rw [updateRulePoints_cons]
    by_cases hk : r.rule_key = key
    · have hlook : lookupKey ed r.rule_key = none := by rw [hk]; exact hue
      simp only [hk, if_pos]
      simp [rawScore, ih, hue, hlook]
    · simp only [hk, if_neg, ite_false]
      simp [rawScore, ih]

theorem recompute_update_no_key (rules : List ScoringRule)
    (episodes : List Episode) (key : String) (p : ℚ) (ev : EventRow)
    (h : hasKey ev.event_data key = false) :
    recompute (updateRulePoints rules key p) episodes ev =
      recompute rules episodes ev := by
  have hue : lookupKey ev.event_data key = none := by
    unfold hasKey at h
    cases hl : lookupKey ev.event_data key with
    | none => rfl
    | some v => rw [hl] at h; simp at h
  unfold recompute score_episode_event
  rw [rawScore_update_no_key key p (mergeEpisodeNumberOf episodes)
    ev.episode_number ev.event_data hue rules]

theorem recompute_update_isSome (rules : List ScoringRule)
    (episodes : List Episode) (key : String) (p : ℚ) (ev : EventRow) :
    (recompute (updateRulePoints rules key p) episodes ev).isSome =
      (recompute rules episodes ev).isSome := by
  unfold recompute
  by_cases hc : episodes.any (fun e => e.episode_number = ev.episode_number)
  · simp only [hc, if_pos]
    have hx := rawScore_update_exOk key p (mergeEpisodeNumberOf episodes)
      ev.episode_number ev.event_data rules
    unfold score_episode_event
    cases h1 : rawScore (updateRulePoints rules key p) (mergeEpisodeNumberOf episodes)
        ev.episode_number ev.event_data with
    | error e1 =>
      cases h2 : rawScore rules (mergeEpisodeNumberOf episodes)
          ev.episode_number ev.event_data with
      | error e2 => simp [h1, h2, Except.map, Except.toOption]
      | ok s => rw [h1, h2] at hx; simp [exOk] at hx
    | ok s' =>
      cases h2 : rawScore rules (mergeEpisodeNumberOf episodes)
          ev.episode_number ev.event_data with
      | error e2 => rw [h1, h2] at hx; simp [exOk] at hx
      | ok s => simp [h1, h2, Except.map, Except.toOption]
  · simp [hc]

/-- Claim C5: starting from a season whose persisted scores agree with its
rule set, changing one rule's `points` value and running `rescore_season`
recomputes every event's `calculated_score` with the current (updated) rule
set; events whose event data does not reference the changed rule keep a
numerically unchanged score; and no rules or episodes are created or
deleted — the event list is only mapped through the score overwrite. -/
theorem rescore_after_points_change (s : Season) (key : String) (p : ℚ)
    (hcons : ∀ ev ∈ s.events,
      recompute s.rules s.episodes ev = some ev.calculated_score) :
    (∀ ev ∈ s.events, ∃ q,
        recompute (updateRulePoints s.rules key p) s.episodes ev = some q ∧
        (rescoreEvent (updateRulePoints s.rules key p) s.episodes ev).calculated_score
          = q) ∧
    (∀ ev ∈ s.events, hasKey ev.event_data key = false →
        (rescoreEvent (updateRulePoints s.rules key p) s.episodes ev).calculated_score
          = ev.calculated_score) ∧
    (rescore_season { s with rules := updateRulePoints s.rules key p }).rules
      = updateRulePoints s.rules key p ∧
    (rescore_season { s with rules := updateRulePoints s.rules key p }).episodes
      = s.episodes ∧
    (rescore_season { s with rules := updateRulePoints s.rules key p }).events
      = s.events.map (rescoreEvent (updateRulePoints s.rules key p) s.episodes) := by
  refine ⟨?_, ?_, rfl, rfl, rfl⟩
  · intro ev hev
    have hold := hcons ev hev
    have hsome : (recompute (updateRulePoints s.rules key p) s.episodes ev).isSome
        = true := by
      rw [recompute_update_isSome, hold]
      rfl
    obtain ⟨q, hq⟩ := Option.isSome_iff_exists.mp hsome
    exact ⟨q, hq, by unfold rescoreEvent; simp [hq]⟩
  · intro ev hev hkey
    have hold := hcons ev hev
    unfold rescoreEvent
    rw [recompute_update_no_key s.rules s.episodes key p ev hkey, hold]
    rfl

/-- Claim C5 witness: change the confessional rule's points in the witness
season; the quit-only event's score is numerically unchanged at −15. -/
theorem rescore_after_points_change_witness :
    (∀ ev ∈ witnessSeason.events,
      recompute witnessSeason.rules witnessSeason.episodes ev =
        some ev.calculated_score) ∧
    (rescoreEvent (updateRulePoints witnessSeason.rules confessionalRule.rule_key (1/2))
        witnessSeason.episodes witnessRow).calculated_score = (-15 : ℚ) := by
  have hcons : ∀ ev ∈ witnessSeason.events,
      recompute witnessSeason.rules witnessSeason.episodes ev =
        some ev.calculated_score := by
    intro ev hev
    have heq : ev = witnessRow := by simpa [witnessSeason] using hev
    subst heq
    with_unfolding_all rfl
  refine ⟨hcons, ?_⟩
  have h := rescore_after_points_change witnessSeason confessionalRule.rule_key
    (1/2) hcons
  have h2 := h.2.1 witnessRow (by simp [witnessSeason]) (by decide)
  rw [h2]
  rfl

theorem countP_split {α : Type} (p : α → Bool) :
    ∀ (l : List α) (i : ℕ) (hi : i ≤ l.length),
      (∀ j (hj : j < i), p (l.get ⟨j, lt_of_lt_of_le hj hi⟩) = true) →
      (∀ j (hj : j < l.length), i ≤ j → p (l.get ⟨j, hj⟩) = false) →
      List.countP p l = i := by
  intro l
  induction l with
  | nil =>
    intro i hi _ _
    have h0 : i = 0 := Nat.le_zero.mp hi
    subst h0
    rfl
  | cons a t ih =>
    intro i hi h1 h2
    cases i with
    | zero =>
      apply List.countP_eq_zero.mpr
      intro x hx hpx
      obtain ⟨n, hn⟩ := List.mem_iff_get.mp hx
      have hf := h2 n.1 n.2 (Nat.zero_le _)
      rw [Fin.eta, hn] at hf
      rw [hpx] at hf
      exact Bool.noConfusion hf
    | succ k =>
      have hpa : p a = true := h1 0 (Nat.succ_pos k)
      rw [List.countP_cons_of_pos p t hpa]
      have ht := ih k (Nat.le_of_succ_le_succ hi)
        (fun j hj => h1 (j + 1) (Nat.succ_lt_succ hj))
        (fun j hj hk => h2 (j + 1) (Nat.succ_lt_succ hj) (Nat.succ_le_succ hk))
      rw [ht]

theorem rankEntries_length (entries : List (String × ℚ)) :
    (rankEntries entries).length =
      (List.insertionSort scoreDescRel entries).length := by
  simp [rankEntries]

theorem rankEntries_get (entries : List (String × ℚ)) (j : ℕ)
    (hj : j < (rankEntries entries).length) :
    (rankEntries entries).get ⟨j, hj⟩ =
      (((List.insertionSort scoreDescRel entries).get
          ⟨j, rankEntries_length entries ▸ hj⟩).1,
       ((List.insertionSort scoreDescRel entries).get
          ⟨j, rankEntries_length entries ▸ hj⟩).2,
       rankOf entries
         ((List.insertionSort scoreDescRel entries).get
           ⟨j, rankEntries_length entries ▸ hj⟩).2) := by
  simp [rankEntries, List.get_eq_getElem, List.getElem_map]

theorem rankEntries_rank_position (entries : List (String × ℚ)) (i : ℕ)
    (hi : i < (rankEntries entries).length)
    (hlt : ∀ j (hj : j < i),
      ((rankEntries entries).get ⟨i, hi⟩).2.1 <
        ((rankEntries entries).get ⟨j, lt_trans hj hi⟩).2.1) :
    ((rankEntries entries).get ⟨i, hi⟩).2.2 = i + 1 := by
  have hil : i < (List.insertionSort scoreDescRel entries).length :=
    rankEntries_length entries ▸ hi
  have hcount : List.countP
      (fun q => decide (((List.insertionSort scoreDescRel entries).get
        ⟨i, hil⟩).2 < q.2)) (List.insertionSort scoreDescRel entries) = i := by
    refine countP_split _ _ _ (le_of_lt hil) ?_ ?_
    · intro j hj
      have h := hlt j hj
      rw [rankEntries_get entries i hi, rankEntries_get entries j (lt_trans hj hi)] at h
      simpa using h
    · intro j hj hij
      have hsort := List.sorted_insertionSort scoreDescRel entries
      have hrel := hsort.rel_get_of_le
        (a := ⟨i, hil⟩) (b := ⟨j, hj⟩) (Fin.mk_le_mk.mpr hij)
      simp only [scoreDescRel] at hrel
      rw [List.get_eq_getElem, List.get_eq_getElem] at hrel
      simp [not_lt.mpr hrel]
  rw [rankEntries_get entries i hi]
  show rankOf entries ((List.insertionSort scoreDescRel entries).get ⟨i, hil⟩).2 = i + 1
  unfold rankOf
  rw [← (List.perm_insertionSort scoreDescRel entries).countP_eq, hcount]
  exact Nat.add_comm 1 i

/-- Claim C6: `leaderboard` and `castaway_rankings` order entries by
total_score descending and assign standard competition ranks: equal totals
share a rank, and an entry scoring strictly below everything before it
receives a rank equal to its 1-indexed position (the 1,2,2,4 pattern, not
previous rank plus one). -/
theorem standard_competition_ranking (entries : List (String × ℚ)) :
    leaderboard entries = rankEntries entries ∧
    castaway_rankings entries = rankEntries entries ∧
    List.Sorted (fun a b : String × ℚ × ℕ => b.2.1 ≤ a.2.1)
      (rankEntries entries) ∧
    (∀ a ∈ rankEntries entries, ∀ b ∈ rankEntries entries,
        a.2.1 = b.2.1 → a.2.2 = b.2.2) ∧
    (∀ i (hi : i < (rankEntries entries).length),
        (∀ j (hj : j < i), ((rankEntries entries).get ⟨i, hi⟩).2.1 <
            ((rankEntries entries).get ⟨j, lt_trans hj hi⟩).2.1) →
        ((rankEntries entries).get ⟨i, hi⟩).2.2 = i + 1) := by
  refine ⟨rfl, rfl, ?_, ?_, ?_⟩
  · unfold rankEntries
    unfold List.Sorted
    rw [List.pairwise_map]
    exact List.sorted_insertionSort scoreDescRel entries
  · intro a ha b hb hscore
    unfold rankEntries at ha hb
    obtain ⟨pa, hpa, rfl⟩ := List.mem_map.mp ha
    obtain ⟨pb, hpb, rfl⟩ := List.mem_map.mp hb
    exact congrArg (rankOf entries) hscore
  · exact fun i hi hlt => rankEntries_rank_position entries i hi hlt

/-- Claim C6 witness: on totals 10, 8, 8, 5 the assigned ranks are
1, 2, 2, 4, and the last entry's rank equals its 1-indexed position. -/
theorem standard_competition_ranking_witness :
    (rankEntries rankWitnessEntries).map (fun p => p.2.2) = [1, 2, 2, 4] ∧
    ((rankEntries rankWitnessEntries).get ⟨3, by decide⟩).2.2 = 3 + 1 := by
  constructor
  · decide
  · exact (standard_competition_ranking rankWitnessEntries).2.2.2.2 3 (by decide)
      (by decide)

theorem resolveSeasonId_fst_eq_snd (env : SeasonEnv) (v : ℤ)
    (h : (resolveSeasonId env none).1 = some v) :
    (resolveSeasonId env none).2 = some v := by
  obtain ⟨seasons, saved⟩ := env
  cases seasons with
  | nil => simp [resolveSeasonId] at h
  | cons first rest =>
    cases saved with
    | none =>
      simp [resolveSeasonId] at h ⊢
      exact h
    | some sv =>
      simp only [resolveSeasonId] at h ⊢
      by_cases hc : (first :: rest).contains sv
      · rw [if_pos hc] at h ⊢
        exact h
      · rw [if_neg hc] at h ⊢
        exact h

/-- Claim C9 counterexample: the claim promises that once the season id is
resolved, the cached id is returned unchanged on every later call.  With a
first season whose id is 0, the first call resolves and caches 0, but 0 is
falsy in the JS guard `if (_currentSeasonId)`, so a later call re-resolves
from the then-current environment and returns 5 instead of the previously
resolved 0. -/
theorem getCurrentSeasonId_cache_counterexample :
    (getCurrentSeasonId none { seasons := [0], saved := none }).1 = some 0 ∧
    (getCurrentSeasonId (getCurrentSeasonId none { seasons := [0], saved := none }).2
        { seasons := [0, 5], saved := some 5 }).1 = some 5 ∧
    some (5 : ℤ) ≠ some (0 : ℤ) := by decide

/-- Claim C9 (amended): `getCurrentSeasonId` returns `null` when the fetched
season list is empty; on a fresh cache with a non-empty list it returns the
saved localStorage selection when that id matches some season, else the
first season's id; and once resolved to a NONZERO id the cached id is
returned unchanged on every later call (a resolved id of 0 is falsy in the
JS truthiness guard, so it is not served from the cache). -/
theorem getCurrentSeasonId_resolution (env envLater : SeasonEnv) :
    (env.seasons = [] → getCurrentSeasonId none env = (none, none)) ∧
    (∀ first rest, env.seasons = first :: rest →
      (∀ sv, env.saved = some sv → env.seasons.contains sv = true →
        getCurrentSeasonId none env = (some sv, some sv)) ∧
      (env.saved = none →
        getCurrentSeasonId none env = (some first, some first)) ∧
      (∀ sv, env.saved = some sv → env.seasons.contains sv = false →
        getCurrentSeasonId none env = (some first, some first))) ∧
    (∀ v : ℤ, v ≠ 0 → (getCurrentSeasonId none env).1 = some v →
      getCurrentSeasonId (getCurrentSeasonId none env).2 envLater =
        (some v, some v)) := by
  refine ⟨?_, ?_, ?_⟩
  · intro hs
    obtain ⟨seasons, saved⟩ := env
    simp only at hs
    subst hs
    rfl
  · intro first rest hs
    obtain ⟨seasons, saved⟩ := env
    simp only at hs
    subst hs
    refine ⟨?_, ?_, ?_⟩
    · intro sv hv hc
      simp only at hv
      subst hv
      simp only [getCurrentSeasonId, resolveSeasonId]
      rw [if_pos (by exact hc)]
    · intro hv
      simp only at hv
      subst hv
      rfl
    · intro sv hv hc
      simp only at hv
      subst hv
      simp only [getCurrentSeasonId, resolveSeasonId]
      rw [if_neg (by rw [hc]; exact Bool.false_ne_true)]
  · intro v hv h1
    have h2 : (getCurrentSeasonId none env).2 = some v := by
      exact resolveSeasonId_fst_eq_snd env v h1
    rw [h2]
    simp [getCurrentSeasonId, hv]

/-- Claim C9 (amended) witness: a saved selection 3 matching the list
`[7, 3]` is returned and cached, and a later call in a different
environment still returns 3. -/
theorem getCurrentSeasonId_resolution_witness :
    getCurrentSeasonId none { seasons := [7, 3], saved := some 3 } =
      (some 3, some 3) ∧
    getCurrentSeasonId
        (getCurrentSeasonId none { seasons := [7, 3], saved := some 3 }).2
        { seasons := [9], saved := none } = (some 3, some 3) := by
  have h := getCurrentSeasonId_resolution
    { seasons := [7, 3], saved := some 3 } { seasons := [9], saved := none }
  exact ⟨(h.2.1 7 [3] rfl).1 3 rfl (by decide),
         h.2.2 3 (by decide) (by decide)⟩

theorem twoDigits_length (m : ℕ) (hm : m < 100) : (twoDigits m).length = 2 := by
  revert m
  decide

theorem twoDigits_no_dot (m : ℕ) (hm : m < 100) :
    (twoDigits m).data.contains ('.' : Char) = false := by
  revert m
  decide

/-- Claim C10: `formatScore` is total — `null`/`undefined` renders as the
plain string `0` (no span, no decimals), and a numeric value renders as a
span whose text shows the value with exactly two digits after the decimal
point, classed `score-positive` for positive values, `score-negative` for
negative ones, and with neither class at exactly 0. -/
theorem formatScore_total (q : ℚ) :
    formatScore none = "0" ∧
    formatScore (some q) =
      "<span class=\"score " ++ scoreClass q ++ "\">" ++ toFixed2 q ++ "</span>" ∧
    (∃ intPart frac, toFixed2 q = intPart ++ "." ++ frac ∧
        frac.length = 2 ∧ frac.data.contains ('.' : Char) = false) ∧
    (0 < q → scoreClass q = "score-positive") ∧
    (q < 0 → scoreClass q = "score-negative") ∧
    (q = 0 → scoreClass q = "") := by
  refine ⟨rfl, rfl, ?_, ?_, ?_, ?_⟩
  · refine ⟨(if q < 0 then "-" else "") ++
      Nat.repr ((round (100 * |q|)).toNat / 100),
      twoDigits ((round (100 * |q|)).toNat % 100), ?_, ?_, ?_⟩
    · unfold toFixed2
      rw [String.append_assoc, String.append_assoc]
    · exact twoDigits_length _ (Nat.mod_lt _ (by norm_num))
    · exact twoDigits_no_dot _ (Nat.mod_lt _ (by norm_num))
  · intro h
    unfold scoreClass
    rw [if_pos h]
  · intro h
    unfold scoreClass
    rw [if_neg (not_lt.mpr (le_of_lt h)), if_pos h]
  · intro h
    subst h
    rfl

/-- Claim C10 witness: at 5/2 the class is `score-positive` and the
rendering is the two-decimal span `2.50`; `null` renders as plain `0`. -/
theorem formatScore_total_witness :
    formatScore none = "0" ∧
    (0 : ℚ) < 5/2 ∧
    scoreClass (5/2) = "score-positive" ∧
    formatScore (some (5/2)) =
      "<span class=\"score score-positive\">2.50</span>" := by
  have h := formatScore_total (5/2)
  have hpos : (0 : ℚ) < 5/2 := by with_unfolding_all decide
  exact ⟨h.1, hpos, h.2.2.2.1 hpos, by with_unfolding_all rfl⟩
